import Mathlib

/-!
Verification development for the NTree SugarCube library
(`src/scripts/ntree/index.ts`).

The embedding models:
* JavaScript `Map` / plain-object tables as association lists with
  insertion-order semantics (`lookupKey`, `setKey`, `eraseKey`, `mergeKeys`);
* delta values (`Value`), with JavaScript arrays represented as references
  into an explicit heap so that the in-place `push` performed by
  `NTree.update` is observable;
* the provider/handler dispatch engine (`NTree.update`), handler
  registration (`NTree.registerHandlerIDs`), tree construction
  (`NTree.constructTree`) and deletion (`NTree.deleteNTree`);
* the `treebranch` macro handler body after tree resolution (`visitTree`):
  cursor computation, end-of-sequence policy, argument parsing via an
  abstract host evaluator, delta accumulation and dispatch.
-/

/-- Association-list lookup with JavaScript `Map`/plain-object semantics:
the first matching key wins (construction keeps keys unique). -/
def lookupKey {α : Type _} : List (String × α) → String → Option α
  | [], _ => none
  | e :: rest, k => if e.1 = k then some e.2 else lookupKey rest k

/-- Key-membership test, mirrors `Map.prototype.has` / `hasOwnProperty`. -/
def hasKey {α : Type _} (m : List (String × α)) (k : String) : Bool :=
  (lookupKey m k).isSome

/-- JavaScript `Map.prototype.delete` (ignoring the returned flag): removes
the entry for the key, leaving the table unchanged when the key is absent. -/
def eraseKey {α : Type _} : List (String × α) → String → List (String × α)
  | [], _ => []
  | e :: rest, k => if e.1 = k then rest else e :: eraseKey rest k

/-- JavaScript `Map.prototype.set` / property assignment: replace the value
in place when the key exists, append at the end otherwise. -/
def setKey {α : Type _} : List (String × α) → String → α → List (String × α)
  | [], k, v => [(k, v)]
  | e :: rest, k, v => if e.1 = k then (k, v) :: rest else e :: setKey rest k v

/-- The assignment loop `Object.keys(src).forEach(key => target[key] = src[key])`
(also the semantics of `Object.assign(target, src)`). -/
def mergeKeys {α : Type _} (t : List (String × α)) : List (String × α) → List (String × α)
  | [] => t
  | e :: rest => mergeKeys (setKey t e.1 e.2) rest

/-- A kernel-computable model of `String.prototype.trim`: drop leading and
trailing whitespace (JavaScript `!s.trim()` is `trimChars s = ""`). -/
def trimChars (s : String) : String :=
  ⟨((s.toList.dropWhile Char.isWhitespace).reverse.dropWhile Char.isWhitespace).reverse⟩

/-- Values flowing through delta maps and handler invocations.  JavaScript
arrays are modelled as references (`arrRef`) into an explicit heap so that
the in-place `args.push(...)` in `NTree.update` is observable.  `sentinel`
is the `NTree.clear` symbol; `ctxVal` stands for a `MacroContext` object;
`undef` is JavaScript `undefined` used as a stored value. -/
inductive Value where
  | str (s : String)
  | int (n : Int)
  | sentinel
  | ctxVal
  | undef
  | arrRef (r : Nat)
deriving DecidableEq

/-- A delta map (`HandlerDelta` in the source): provider id to value. -/
abbrev Delta := List (String × Value)

/-- The array heap: cell `r` holds the element list of the array that
`Value.arrRef r` points to. -/
abbrev Heap := List (List Value)

/-- A recorded handler invocation: `upd id args` is
`handler.onUpdate.call(handler, ...args)`, `clr id ctx` is
`handler.onClear(macroContext)`. -/
inductive Call where
  | upd (id : String) (args : List Value)
  | clr (id : String) (ctx : Value)
deriving DecidableEq

/-- The handler id a call was directed at. -/
def Call.cid : Call → String
  | .upd i _ => i
  | .clr i _ => i

/-- Status of a callable-typed slot (`onUpdate` / `onClear`) on a handler
definition object: `absent` covers a missing or falsy slot, `func` a
function value, `nonFunc` a truthy non-function value. -/
inductive JSField where
  | absent
  | func
  | nonFunc
deriving DecidableEq

/-- A handler/provider record (`Handler` interface in the source).  An
absent `id` field on a definition object is modelled by `""`; registration
overwrites it with the registered key.  `deltaSlot` is the `delta` slot the
dispatch engine stores the last observed delta into. -/
structure Handler where
  id : String
  onUpdate : JSField
  onClear : JSField
  skipArgs : Bool
  clearOnEveryLeaf : Bool
  deltaSlot : Option Delta
deriving DecidableEq

namespace NTree

/-- `NTree.defaultHandlerID` from the source. -/
def defaultHandlerID : String := "__default"

/-- The inner `clear()` helper of `NTree.update`: invoke `onClear` when it
is set (truthy). -/
def clearCalls (h : Handler) (ctx : Value) : List Call :=
  if h.onClear = JSField.absent then [] else [Call.clr h.id ctx]

/-- Dispatch of a delta value that is present for the handler:
`deltaVal === NTree.clear` is the sentinel test, then the `skipArgs` call
shape, otherwise `deltaVal instanceof Array` selects the `arrRef` case —
where `args.push(macroContext)` mutates the heap cell in place before the
spread call — and any other value is wrapped as `[deltaVal]`. -/
def dispatchVal (h : Handler) (ctx : Value) (v : Value) (heap : Heap) :
    List Call × Heap :=
  if v = Value.sentinel then (clearCalls h ctx, heap)
  else if h.skipArgs then ([Call.upd h.id [v, ctx]], heap)
  else
    match v with
    | Value.arrRef r =>
      let vs := (heap.get? r).getD []
      ([Call.upd h.id (vs ++ [ctx])], heap.set r (vs ++ [ctx]))
    | _ => ([Call.upd h.id [v, ctx]], heap)

/-- One iteration of the `handlers.forEach` body of `NTree.update`, without
the `handler.delta = delta` store: the emitted calls and the heap after the
possible in-place `push`.  `hasOwnProperty` becomes a successful lookup;
a missing key runs the `clearOnEveryLeaf` branch. -/
def dispatchOne (δ : Delta) (ctx : Value) (h : Handler) (heap : Heap) :
    List Call × Heap :=
  match lookupKey δ h.id with
  | some v => dispatchVal h ctx v heap
  | none =>
    if h.clearOnEveryLeaf then (clearCalls h ctx, heap)
    else ([], heap)

/-- Result of `NTree.update`: the invocation trace, the final heap, and the
handler records (each with its `delta` slot updated). -/
structure UpdateResult where
  calls : List Call
  heap : Heap
  handlers : List Handler
deriving DecidableEq

/-- `NTree.update(delta, macroContext)`: iterate the registered handlers in
insertion order; for each, store the delta on its `delta` slot and run the
dispatch branch of `dispatchOne`. -/
def update : List Handler → Delta → Value → Heap → UpdateResult
  | [], _, _, heap => ⟨[], heap, []⟩
  | h :: rest, δ, ctx, heap =>
    let step := dispatchOne δ ctx h heap
    let restRes := update rest δ ctx step.2
    ⟨step.1 ++ restRes.calls, restRes.heap, { h with deltaSlot := some δ } :: restRes.handlers⟩

/-- Validation/registration failures thrown by the source (modelled by
identity, not message text). -/
inductive RegError where
  | blankID
  | noOnUpdate
  | onUpdateNotFunction
  | onClearNotFunction
deriving DecidableEq

/-- The loop body of `NTree.registerHandler` over the id list
(`id instanceof Array ? id : [id]`).  Returns the handler table as left by
the call together with the error that aborted it, if any.  Mirrors the
source order: blank-id check, then `handlers.delete(id)`, then the
definition checks, then `handlers.set(id, Object.assign({}, def, { id }))`. -/
def registerHandlerIDs : List String → Handler → List (String × Handler) →
    List (String × Handler) × Option RegError
  | [], _, tbl => (tbl, none)
  | id :: rest, defn, tbl =>
    if trimChars id = "" then (tbl, some NTree.RegError.blankID)
    else
      let t1 := eraseKey tbl id
      if defn.onUpdate = JSField.absent then (t1, some RegError.noOnUpdate)
      else if defn.onUpdate ≠ JSField.func then (t1, some RegError.onUpdateNotFunction)
      else if defn.onClear = JSField.nonFunc then (t1, some RegError.onClearNotFunction)
      else registerHandlerIDs rest defn (setKey t1 id { defn with id := id })

/-- The effect all successfully processed ids of one `registerHandler` call
have on the table: delete the key, then re-insert it bound to a copy of the
definition tagged with the id. -/
def commitIDs (ids : List String) (defn : Handler) (tbl : List (String × Handler)) :
    List (String × Handler) :=
  ids.foldl (fun t i => setKey (eraseKey t i) i { defn with id := i }) tbl

/-- The definition object built by `registerDefault(NTree.defaultOnUpdateHandler)`:
only `onUpdate` is set (to a function). -/
def defaultHandlerDefn : Handler :=
  { id := "", onUpdate := JSField.func, onClear := JSField.absent,
    skipArgs := false, clearOnEveryLeaf := false, deltaSlot := none }

/-- Persisted per-tree state (`NTreeState`): the id, the visit log (branch
id to last revealed payload index) and the pending delta accumulator. -/
structure TreeState where
  id : String
  log : List (String × Nat)
  delta : Delta
deriving DecidableEq

/-- A tree object is represented by its handler table (its only own data
besides the id, which is the repository key). -/
abbrev HandlersTable := List (String × Handler)

/-- The `NTree` constructor: throws (`none`) on a blank id; otherwise
registers the default handler on a fresh table and unconditionally writes
the repository entry and a fresh state (empty log, empty delta) into the
state store. -/
def constructTree (id : String) (repo : List (String × HandlersTable))
    (store : List (String × TreeState)) :
    Option (List (String × HandlersTable) × List (String × TreeState)) :=
  if trimChars id = "" then none
  else
    let handlers := (registerHandlerIDs [defaultHandlerID] defaultHandlerDefn []).1
    some (setKey repo id handlers, setKey store id ⟨id, [], []⟩)

/-- `NTree.deleteNTree(id)`: `Repository.delete(id) && StateStore.delete(id)`
with JavaScript short-circuit evaluation — the state-store deletion runs
only when the repository deletion returned `true`.  Returns the flag and
both tables afterwards. -/
def deleteNTree {α β : Type _} (id : String) (repo : List (String × α))
    (store : List (String × β)) : Bool × List (String × α) × List (String × β) :=
  if hasKey repo id then
    (hasKey store id, eraseKey repo id, eraseKey store id)
  else
    (false, repo, store)

end NTree

/-- One payload chunk of a `treebranch` body: its rendered contents and the
raw argument-expression text (`chunk.args.full`). -/
structure Leaf where
  contents : String
  argsFull : String
deriving DecidableEq

/-- `chunk.args.full.trim() || "\x7b\x7d"`. -/
def leafArgsTxt (l : Leaf) : String :=
  if trimChars l.argsFull = "" then "\x7b\x7d" else trimChars l.argsFull

/-- The `NTreeBranchRepeatConfig` end-of-sequence policies: `norepeat`,
`repeatlast` and `repeat` (the last named `repeatLoop` here because
`repeat` is a Lean keyword). -/
inductive RepeatConfig where
  | noRepeat
  | repeatLast
  | repeatLoop
deriving DecidableEq

/-- The cursor computation of the macro handler: `current = latest + 1`,
and when `current` equals the payload length the policy applies — `repeat`
restarts at `1`, `repeatlast` re-reveals `latest`, `norepeat` silently
aborts (`none`). -/
def selectCurrent (len : Nat) (rep : RepeatConfig) (latest : Nat) : Option Nat :=
  let current := latest + 1
  if current = len then
    match rep with
    | RepeatConfig.repeatLoop => some 1
    | RepeatConfig.repeatLast => some latest
    | RepeatConfig.noRepeat => none
  else some current

/-- Visitation failures surfaced through `_this.error` (modelled by
identity): a malformed argument object, reported with the leaf index
`current - 1` (a JavaScript number, hence `Int`) and the raw argument text;
or an out-of-range payload access (the `TypeError` on `chunk.args`). -/
inductive VisitError where
  | malformedArg (leafIdx : Int) (raw : String)
  | missingChunk (idx : Nat)
deriving DecidableEq

/-- Outcome of one visitation: the silent `norepeat` stop, an error, or a
dispatch of the given delta from the given payload index with the recorded
handler invocations. -/
inductive VisitOutcome where
  | silent
  | err (e : VisitError)
  | dispatched (idx : Nat) (δ : Delta) (calls : List Call)
deriving DecidableEq

/-- Result of one visitation: the outcome plus the tree state, heap and
handler records afterwards. -/
structure VisitResult where
  outcome : VisitOutcome
  state : NTree.TreeState
  heap : Heap
  handlers : List Handler
deriving DecidableEq

/-- The body of the `treebranch` macro handler after tree resolution
(source lines 173–216): read the cursor (`?? 0`), apply the end-of-sequence
policy, select the payload chunk, evaluate its argument text through the
host evaluator `evalArgs` (`Scripting.evalJavaScript`), merge the parsed
object into the persisted accumulator `tree.state.delta` (in place, before
dispatch), dispatch `Object.assign({ [__default]: chunk.contents }, delta)`
through `NTree.update`, and finally persist the cursor.  A failed
evaluation aborts before any state mutation. -/
def visitTree (evalArgs : String → Option Delta) (payload : List Leaf)
    (rep : RepeatConfig) (branchID : String) (ctx : Value)
    (handlers : List Handler) (st : NTree.TreeState) (heap : Heap) : VisitResult :=
  let latest := (lookupKey st.log branchID).getD 0
  match selectCurrent payload.length rep latest with
  | none => ⟨VisitOutcome.silent, st, heap, handlers⟩
  | some current =>
    match payload.get? current with
    | none => ⟨VisitOutcome.err (VisitError.missingChunk current), st, heap, handlers⟩
    | some chunk =>
      let argsTxt := leafArgsTxt chunk
      match evalArgs argsTxt with
      | none =>
        ⟨VisitOutcome.err (VisitError.malformedArg ((current : Int) - 1) argsTxt),
         st, heap, handlers⟩
      | some parsed =>
        let acc := mergeKeys st.delta parsed
        let dispatchDelta := mergeKeys [(NTree.defaultHandlerID, Value.str chunk.contents)] acc
        let res := NTree.update handlers dispatchDelta ctx heap
        ⟨VisitOutcome.dispatched current dispatchDelta res.calls,
         ⟨st.id, setKey st.log branchID current, acc⟩, res.heap, res.handlers⟩

/-- The delta a visitation dispatched, when it dispatched. -/
def dispatchDeltaOf (r : VisitResult) : Option Delta :=
  match r.outcome with
  | VisitOutcome.dispatched _ δ _ => some δ
  | _ => none

/-- The payload index a visitation revealed, when it dispatched. -/
def revealedIdx (r : VisitResult) : Option Nat :=
  match r.outcome with
  | VisitOutcome.dispatched i _ _ => some i
  | _ => none

/-- The sub-trace of calls directed at handler id `i`. -/
def callsFor (i : String) (cs : List Call) : List Call :=
  cs.filter (fun c => c.cid == i)

/-- Keys of an association list are pairwise distinct. -/
def KeysNodup {α : Type _} (m : List (String × α)) : Prop :=
  (m.map Prod.fst).Nodup

/-- The state reached after `n` successive visitations of the same branch,
threading handlers, tree state and heap; the `outcome` field is that of the
`n`-th visitation (for `n = 0` no visitation happened and the outcome field
is a placeholder). -/
def visitN (evalArgs : String → Option Delta) (payload : List Leaf)
    (rep : RepeatConfig) (branchID : String) (ctx : Value)
    (handlers : List Handler) (st : NTree.TreeState) (heap : Heap) :
    Nat → VisitResult
  | 0 => ⟨VisitOutcome.silent, st, heap, handlers⟩
  | n + 1 =>
    let r := visitN evalArgs payload rep branchID ctx handlers st heap n
    visitTree evalArgs payload rep branchID ctx r.handlers r.state r.heap

/-- A stub host evaluator recognising only the empty object literal
(used by concrete witnesses). -/
def evalEmptyObj : String → Option Delta :=
  fun s => if s = "\x7b\x7d" then some ([] : Delta) else none

/-- A sample provider record used by concrete witnesses. -/
def sampleHandler : Handler :=
  { id := "p", onUpdate := JSField.func, onClear := JSField.func,
    skipArgs := false, clearOnEveryLeaf := false, deltaSlot := none }

/-- A stub host evaluator mapping the literal `"a"` to an object targeting
provider `"sp"` (used by concrete witnesses). -/
def evalSpriteArg : String → Option Delta :=
  fun s =>
    if s = "a" then some [("sp", Value.int 7)]
    else if s = "\x7b\x7d" then some ([] : Delta) else none

/-- A sample 3-leaf payload whose middle leaf carries the argument text
`"a"` (used by concrete witnesses). -/
def payloadSprite : List Leaf := [⟨"P", ""⟩, ⟨"A", "a"⟩, ⟨"B", ""⟩]

/-- The default handler record as registered by the constructor
(`Object.assign({}, { onUpdate }, { id: "__default" })`). -/
def registeredDefault : Handler :=
  { NTree.defaultHandlerDefn with id := NTree.defaultHandlerID }

theorem lookupKey_cons {α : Type _} (e : String × α) (rest : List (String × α)) (k : String) :
    lookupKey (e :: rest) k = if e.1 = k then some e.2 else lookupKey rest k := rfl

theorem hasKey_cons {α : Type _} (e : String × α) (rest : List (String × α)) (k : String) :
    hasKey (e :: rest) k = if e.1 = k then true else hasKey rest k := by
  by_cases h : e.1 = k <;> simp [hasKey, lookupKey_cons, h]

theorem lookupKey_setKey_self {α : Type _} (m : List (String × α)) (k : String) (v : α) :
    lookupKey (setKey m k v) k = some v := by
  induction m with
  | nil => simp [setKey, lookupKey]
  | cons e rest ih =>
    by_cases h : e.1 = k
    · simp [setKey, h, lookupKey]
    · simp [setKey, h, lookupKey, ih]

theorem lookupKey_setKey_ne {α : Type _} (m : List (String × α)) {k k' : String} (v : α)
    (h : k' ≠ k) : lookupKey (setKey m k v) k' = lookupKey m k' := by
  have hne : ¬k = k' := fun hk => h hk.symm
  induction m with
  | nil => simp [setKey, lookupKey, hne]
  | cons e rest ih =>
    by_cases he : e.1 = k
    · have he' : ¬e.1 = k' := by rw [he]; exact hne
      simp [setKey, he, lookupKey_cons, hne, he']
    · simp only [setKey, he, if_false, lookupKey_cons, ih]

theorem hasKey_setKey {α : Type _} (m : List (String × α)) (k k' : String) (v : α) :
    hasKey (setKey m k v) k' = if k = k' then true else hasKey m k' := by
  by_cases h : k = k'
  · subst h; simp [hasKey, lookupKey_setKey_self]
  · simp [hasKey, lookupKey_setKey_ne m v (fun hk => h hk.symm), h]

theorem hasKey_mergeKeys {α : Type _} (s t : List (String × α)) (k : String) :
    hasKey (mergeKeys t s) k = (hasKey t k || hasKey s k) := by
  induction s generalizing t with
  | nil => simp [mergeKeys, hasKey, lookupKey]
  | cons e rest ih =>
    simp only [mergeKeys, ih, hasKey_setKey, hasKey_cons]
    by_cases h : e.1 = k <;> simp [h]

theorem lookupKey_mergeKeys_absent {α : Type _} :
    ∀ (s t : List (String × α)) {k : String}, hasKey s k = false →
      lookupKey (mergeKeys t s) k = lookupKey t k
  | [], t, k, _ => by simp [mergeKeys]
  | e :: rest, t, k, h => by
    by_cases he : e.1 = k
    · simp [hasKey_cons, he] at h
    · simp only [hasKey_cons, he, if_false] at h
      simp only [mergeKeys]
      rw [lookupKey_mergeKeys_absent rest (setKey t e.1 e.2) h,
          lookupKey_setKey_ne _ _ (fun hk => he hk.symm)]

theorem hasKey_true_iff {α : Type _} (m : List (String × α)) (k : String) :
    hasKey m k = true ↔ k ∈ m.map Prod.fst := by
  induction m with
  | nil => simp [hasKey, lookupKey]
  | cons e rest ih =>
    by_cases h : e.1 = k
    · simp [hasKey_cons, h]
    · have h' : ¬k = e.1 := fun hk => h hk.symm
      simp [hasKey_cons, h, h', ih]

theorem mem_keys_setKey {α : Type _} {m : List (String × α)} {k a : String} {v : α}
    (h : a ∈ (setKey m k v).map Prod.fst) : a = k ∨ a ∈ m.map Prod.fst := by
  induction m with
  | nil => simp [setKey] at h; exact Or.inl h
  | cons e rest ih =>
    by_cases he : e.1 = k
    · simp only [setKey, he, if_true, List.map_cons, List.mem_cons] at h
      rcases h with h | h
      · exact Or.inl h
      · exact Or.inr (by simp [h])
    · simp only [setKey, he, if_false, List.map_cons, List.mem_cons] at h
      rcases h with h | h
      · exact Or.inr (by simp [h])
      · rcases ih h with h' | h'
        · exact Or.inl h'
        · exact Or.inr (by simp [h'])

theorem keysNodup_setKey {α : Type _} {m : List (String × α)} (k : String) (v : α)
    (h : KeysNodup m) : KeysNodup (setKey m k v) := by
  induction m with
  | nil => simp [KeysNodup, setKey]
  | cons e rest ih =>
    unfold KeysNodup at h
    simp only [List.map_cons, List.nodup_cons] at h
    by_cases he : e.1 = k
    · unfold KeysNodup
      simp only [setKey, he, if_true, List.map_cons, List.nodup_cons]
      exact ⟨he ▸ h.1, h.2⟩
    · unfold KeysNodup
      simp only [setKey, he, if_false, List.map_cons, List.nodup_cons]
      refine ⟨fun hmem => ?_, ih h.2⟩
      rcases mem_keys_setKey hmem with h' | h'
      · exact he h'
      · exact h.1 h'

theorem keysNodup_mergeKeys {α : Type _} :
    ∀ (s t : List (String × α)), KeysNodup t → KeysNodup (mergeKeys t s)
  | [], _, h => h
  | e :: rest, t, h => keysNodup_mergeKeys rest (setKey t e.1 e.2) (keysNodup_setKey e.1 e.2 h)

theorem lookupKey_mergeKeys_present {α : Type _} :
    ∀ (s t : List (String × α)) {k : String} {v : α}, KeysNodup s →
      lookupKey s k = some v → lookupKey (mergeKeys t s) k = some v
  | [], _, k, v, _, h => by simp [lookupKey] at h
  | e :: rest, t, k, v, hnd, h => by
    have hnd' : e.1 ∉ rest.map Prod.fst ∧ KeysNodup rest := by
      unfold KeysNodup at hnd
      simpa [KeysNodup] using hnd
    by_cases he : e.1 = k
    · simp only [lookupKey_cons, he, if_true, Option.some.injEq] at h
      subst h
      have hrest : hasKey rest k = false := by
        rcases hk : hasKey rest k with _ | _
        · rfl
        · exact absurd (he ▸ (hasKey_true_iff rest k).1 hk) hnd'.1
      simp only [mergeKeys]
      rw [lookupKey_mergeKeys_absent rest _ hrest, he, lookupKey_setKey_self]
    · simp only [lookupKey_cons, he, if_false] at h
      simp only [mergeKeys]
      exact lookupKey_mergeKeys_present rest _ hnd'.2 h

theorem callsFor_append (i : String) (a b : List Call) :
    callsFor i (a ++ b) = callsFor i a ++ callsFor i b := by
  simp [callsFor, List.filter_append]

theorem dispatchOne_lookup_some {δ : Delta} (ctx : Value) (h : Handler) (heap : Heap)
    {v : Value} (hl : lookupKey δ h.id = some v) :
    NTree.dispatchOne δ ctx h heap = NTree.dispatchVal h ctx v heap := by
  unfold NTree.dispatchOne
  rw [hl]

theorem dispatchVal_sentinel (h : Handler) (ctx : Value) (heap : Heap) :
    NTree.dispatchVal h ctx Value.sentinel heap = (NTree.clearCalls h ctx, heap) := by
  simp [NTree.dispatchVal]

theorem dispatchVal_scalar (h : Handler) (ctx : Value) {v : Value} (heap : Heap)
    (hsent : v ≠ Value.sentinel) (harr : ∀ r, v ≠ Value.arrRef r)
    (hskip : h.skipArgs = false) :
    NTree.dispatchVal h ctx v heap = ([Call.upd h.id [v, ctx]], heap) := by
  cases v with
  | sentinel => exact absurd rfl hsent
  | arrRef r => exact absurd rfl (harr r)
  | str s => simp [NTree.dispatchVal, hskip]
  | int n => simp [NTree.dispatchVal, hskip]
  | ctxVal => simp [NTree.dispatchVal, hskip]
  | undef => simp [NTree.dispatchVal, hskip]

theorem dispatchVal_arr (h : Handler) (ctx : Value) (r : Nat) (heap : Heap)
    (hskip : h.skipArgs = false) {vs : List Value} (hr : heap.get? r = some vs) :
    NTree.dispatchVal h ctx (Value.arrRef r) heap =
      ([Call.upd h.id (vs ++ [ctx])], heap.set r (vs ++ [ctx])) := by
  have hsent : ¬(Value.arrRef r = Value.sentinel) := by simp
  have hsk : ¬(h.skipArgs = true) := by simp [hskip]
  unfold NTree.dispatchVal
  rw [if_neg hsent, if_neg hsk]
  show ([Call.upd h.id ((heap.get? r).getD [] ++ [ctx])],
        heap.set r ((heap.get? r).getD [] ++ [ctx])) = _
  rw [hr]
  rfl

theorem dispatchVal_cid (h : Handler) (ctx : Value) (v : Value) (heap : Heap) :
    ∀ c ∈ (NTree.dispatchVal h ctx v heap).1, c.cid = h.id := by
  intro c hc
  unfold NTree.dispatchVal NTree.clearCalls at hc
  cases v <;> split_ifs at hc <;> simp_all [Call.cid]

theorem dispatchOne_cid (δ : Delta) (ctx : Value) (h : Handler) (heap : Heap) :
    ∀ c ∈ (NTree.dispatchOne δ ctx h heap).1, c.cid = h.id := by
  intro c hc
  unfold NTree.dispatchOne at hc
  cases hl : lookupKey δ h.id with
  | none =>
    rw [hl] at hc
    unfold NTree.clearCalls at hc
    split_ifs at hc <;> simp_all [Call.cid]
  | some v =>
    rw [hl] at hc
    exact dispatchVal_cid h ctx v heap c hc

theorem dispatchVal_heap_ne (h : Handler) (ctx : Value) {v : Value} (heap : Heap)
    {r : Nat} (hv : v ≠ Value.arrRef r) :
    ((NTree.dispatchVal h ctx v heap).2).get? r = heap.get? r := by
  cases v with
  | arrRef r' =>
    have hrr : r' ≠ r := fun he => hv (by rw [he])
    have hsent : ¬(Value.arrRef r' = Value.sentinel) := by simp
    unfold NTree.dispatchVal
    rw [if_neg hsent]
    by_cases hsk : h.skipArgs = true
    · rw [if_pos hsk]
    · rw [if_neg hsk]
      show (heap.set r' _).get? r = heap.get? r
      exact List.get?_set_ne _ heap hrr
  | str s => unfold NTree.dispatchVal; split_ifs <;> rfl
  | int n => unfold NTree.dispatchVal; split_ifs <;> rfl
  | sentinel => unfold NTree.dispatchVal; split_ifs <;> rfl
  | ctxVal => unfold NTree.dispatchVal; split_ifs <;> rfl
  | undef => unfold NTree.dispatchVal; split_ifs <;> rfl

theorem dispatchOne_heap_ne (δ : Delta) (ctx : Value) (h : Handler) (heap : Heap)
    {r : Nat} (hna : lookupKey δ h.id ≠ some (Value.arrRef r)) :
    ((NTree.dispatchOne δ ctx h heap).2).get? r = heap.get? r := by
  unfold NTree.dispatchOne
  cases hl : lookupKey δ h.id with
  | none => split_ifs <;> rfl
  | some v =>
    have hv : v ≠ Value.arrRef r := fun he => hna (he ▸ hl)
    exact dispatchVal_heap_ne h ctx heap hv

theorem update_calls_cid (δ : Delta) (ctx : Value) :
    ∀ (hs : List Handler) (heap : Heap), ∀ c ∈ (NTree.update hs δ ctx heap).calls,
      ∃ h ∈ hs, c.cid = h.id
  | [], heap, c, hc => by simp [NTree.update] at hc
  | h :: rest, heap, c, hc => by
    simp only [NTree.update, List.mem_append] at hc
    rcases hc with hc | hc
    · exact ⟨h, List.mem_cons_self h rest, dispatchOne_cid δ ctx h heap c hc⟩
    · obtain ⟨q, hq, hcid⟩ := update_calls_cid δ ctx rest _ c hc
      exact ⟨q, List.mem_cons_of_mem h hq, hcid⟩

theorem callsFor_update_absent (δ : Delta) (ctx : Value) (hs : List Handler)
    (heap : Heap) {i : String} (hall : ∀ h ∈ hs, h.id ≠ i) :
    callsFor i (NTree.update hs δ ctx heap).calls = [] := by
  rw [callsFor, List.filter_eq_nil_iff]
  intro c hc
  obtain ⟨h, hh, hcid⟩ := update_calls_cid δ ctx hs heap c hc
  simp only [hcid, beq_iff_eq]
  exact hall h hh

theorem update_heap_get (δ : Delta) (ctx : Value) :
    ∀ (hs : List Handler) (heap : Heap) {r : Nat},
      (∀ h ∈ hs, lookupKey δ h.id ≠ some (Value.arrRef r)) →
      ((NTree.update hs δ ctx heap).heap).get? r = heap.get? r
  | [], _, _, _ => rfl
  | h :: rest, heap, r, hall => by
    simp only [NTree.update]
    rw [update_heap_get δ ctx rest _ (fun q hq => hall q (List.mem_cons_of_mem h hq)),
        dispatchOne_heap_ne δ ctx h heap (hall h (List.mem_cons_self h rest))]

theorem update_callsFor_const (δ : Delta) (ctx : Value) (p : Handler) (cs : List Call)
    (hconst : ∀ hp : Heap, (NTree.dispatchOne δ ctx p hp).1 = cs) :
    ∀ (hs : List Handler) (heap : Heap), (hs.map Handler.id).Nodup → p ∈ hs →
      callsFor p.id (NTree.update hs δ ctx heap).calls = callsFor p.id cs
  | [], _, _, hp => absurd hp (List.not_mem_nil p)
  | h :: rest, heap, hnd, hp => by
    simp only [List.map_cons, List.nodup_cons] at hnd
    simp only [NTree.update]
    rw [callsFor_append]
    rcases List.mem_cons.mp hp with rfl | hmem
    · have hrest : ∀ q ∈ rest, q.id ≠ p.id := fun q hq hqe =>
        hnd.1 (hqe ▸ List.mem_map_of_mem Handler.id hq)
      rw [hconst heap, callsFor_update_absent δ ctx rest _ hrest, List.append_nil]
    · have hne : h.id ≠ p.id := fun he =>
        hnd.1 (he ▸ List.mem_map_of_mem Handler.id hmem)
      have hhead : callsFor p.id (NTree.dispatchOne δ ctx h heap).1 = [] := by
        rw [callsFor, List.filter_eq_nil_iff]
        intro c hc
        simp only [dispatchOne_cid δ ctx h heap c hc, beq_iff_eq]
        exact hne
      rw [hhead, List.nil_append]
      exact update_callsFor_const δ ctx p cs hconst rest _ hnd.2 hmem

theorem update_callsFor_arr (δ : Delta) (ctx : Value) (p : Handler) (r : Nat)
    (hskip : p.skipArgs = false) (hl : lookupKey δ p.id = some (Value.arrRef r)) :
    ∀ (hs : List Handler) (heap : Heap) (vs : List Value),
      (hs.map Handler.id).Nodup → p ∈ hs → heap.get? r = some vs →
      (∀ q ∈ hs, q.id ≠ p.id → lookupKey δ q.id ≠ some (Value.arrRef r)) →
      callsFor p.id (NTree.update hs δ ctx heap).calls = [Call.upd p.id (vs ++ [ctx])]
      ∧ ((NTree.update hs δ ctx heap).heap).get? r = some (vs ++ [ctx])
  | [], _, _, _, hp, _, _ => absurd hp (List.not_mem_nil p)
  | h :: rest, heap, vs, hnd, hp, hheap, hna => by
    simp only [List.map_cons, List.nodup_cons] at hnd
    simp only [NTree.update]
    rcases List.mem_cons.mp hp with rfl | hmem
    · have hrest : ∀ q ∈ rest, q.id ≠ p.id := fun q hq hqe =>
        hnd.1 (hqe ▸ List.mem_map_of_mem Handler.id hq)
      have hlt : r < heap.length := (List.get?_eq_some.mp hheap).choose
      have hstep : NTree.dispatchOne δ ctx p heap =
          ([Call.upd p.id (vs ++ [ctx])], heap.set r (vs ++ [ctx])) := by
        rw [dispatchOne_lookup_some ctx p heap hl, dispatchVal_arr p ctx r heap hskip hheap]
      rw [hstep]
      constructor
      · rw [callsFor_append, callsFor_update_absent δ ctx rest _ hrest, List.append_nil]
        simp [callsFor, Call.cid]
      · rw [update_heap_get δ ctx rest _
              (fun q hq => hna q (List.mem_cons_of_mem p hq) (hrest q hq))]
        exact List.get?_set_eq_of_lt _ hlt
    · have hne : h.id ≠ p.id := fun he =>
        hnd.1 (he ▸ List.mem_map_of_mem Handler.id hmem)
      have hheap1 : ((NTree.dispatchOne δ ctx h heap).2).get? r = some vs := by
        rw [dispatchOne_heap_ne δ ctx h heap
              (hna h (List.mem_cons_self h rest) hne)]
        exact hheap
      have hhead : callsFor p.id (NTree.dispatchOne δ ctx h heap).1 = [] := by
        rw [callsFor, List.filter_eq_nil_iff]
        intro c hc
        simp only [dispatchOne_cid δ ctx h heap c hc, beq_iff_eq]
        exact hne
      have ih := update_callsFor_arr δ ctx p r hskip hl rest
        (NTree.dispatchOne δ ctx h heap).2 vs hnd.2 hmem hheap1
        (fun q hq => hna q (List.mem_cons_of_mem h hq))
      constructor
      · rw [callsFor_append, hhead, List.nil_append]
        exact ih.1
      · exact ih.2

theorem eraseKey_of_hasKey_false {α : Type _} :
    ∀ (m : List (String × α)) {k : String}, hasKey m k = false → eraseKey m k = m
  | [], _, _ => rfl
  | e :: rest, k, h => by
    by_cases he : e.1 = k
    · simp [hasKey_cons, he] at h
    · simp only [hasKey_cons, he, if_false] at h
      simp only [eraseKey, he, if_false]
      rw [eraseKey_of_hasKey_false rest h]

theorem visitTree_silent (evalArgs : String → Option Delta) (payload : List Leaf)
    (rep : RepeatConfig) (branchID : String) (ctx : Value) (handlers : List Handler)
    (st : NTree.TreeState) (heap : Heap)
    (hsel : selectCurrent payload.length rep ((lookupKey st.log branchID).getD 0) = none) :
    visitTree evalArgs payload rep branchID ctx handlers st heap =
      ⟨VisitOutcome.silent, st, heap, handlers⟩ := by
  simp only [visitTree, hsel]

theorem visitTree_malformed (evalArgs : String → Option Delta) (payload : List Leaf)
    (rep : RepeatConfig) (branchID : String) (ctx : Value) (handlers : List Handler)
    (st : NTree.TreeState) (heap : Heap) {cur : Nat} {chunk : Leaf}
    (hsel : selectCurrent payload.length rep ((lookupKey st.log branchID).getD 0) = some cur)
    (hchunk : payload.get? cur = some chunk)
    (heval : evalArgs (leafArgsTxt chunk) = none) :
    visitTree evalArgs payload rep branchID ctx handlers st heap =
      ⟨VisitOutcome.err (VisitError.malformedArg ((cur : Int) - 1) (leafArgsTxt chunk)),
       st, heap, handlers⟩ := by
  simp only [visitTree, hsel, hchunk, heval]

theorem visitTree_dispatch (evalArgs : String → Option Delta) (payload : List Leaf)
    (rep : RepeatConfig) (branchID : String) (ctx : Value) (handlers : List Handler)
    (st : NTree.TreeState) (heap : Heap) {cur : Nat} {chunk : Leaf} {parsed : Delta}
    (hsel : selectCurrent payload.length rep ((lookupKey st.log branchID).getD 0) = some cur)
    (hchunk : payload.get? cur = some chunk)
    (heval : evalArgs (leafArgsTxt chunk) = some parsed) :
    visitTree evalArgs payload rep branchID ctx handlers st heap =
      ⟨VisitOutcome.dispatched cur
         (mergeKeys [(NTree.defaultHandlerID, Value.str chunk.contents)]
           (mergeKeys st.delta parsed))
         (NTree.update handlers
           (mergeKeys [(NTree.defaultHandlerID, Value.str chunk.contents)]
             (mergeKeys st.delta parsed)) ctx heap).calls,
       ⟨st.id, setKey st.log branchID cur, mergeKeys st.delta parsed⟩,
       (NTree.update handlers
         (mergeKeys [(NTree.defaultHandlerID, Value.str chunk.contents)]
           (mergeKeys st.delta parsed)) ctx heap).heap,
       (NTree.update handlers
         (mergeKeys [(NTree.defaultHandlerID, Value.str chunk.contents)]
           (mergeKeys st.delta parsed)) ctx heap).handlers⟩ := by
  simp only [visitTree, hsel, hchunk, heval]

theorem c1_reg_blank_aux :
    ∀ (pre : List String) (b : String) (rest : List String) (defn : Handler)
      (tbl : List (String × Handler)),
      (∀ i ∈ pre, trimChars i ≠ "") → trimChars b = "" →
      defn.onUpdate = JSField.func → defn.onClear ≠ JSField.nonFunc →
      NTree.registerHandlerIDs (pre ++ b :: rest) defn tbl =
        (NTree.commitIDs pre defn tbl, some NTree.RegError.blankID)
  | [], b, rest, defn, tbl, _, hb, _, _ => by
    simp [NTree.registerHandlerIDs, NTree.commitIDs, hb]
  | i :: pre, b, rest, defn, tbl, hpre, hb, hu, hc => by
    have hi : ¬trimChars i = "" := hpre i (List.mem_cons_self i pre)
    have hu1 : ¬defn.onUpdate = JSField.absent := by rw [hu]; decide
    have hu2 : ¬defn.onUpdate ≠ JSField.func := by rw [hu]; decide
    simp only [List.cons_append, NTree.registerHandlerIDs, if_neg hi, if_neg hu1,
      if_neg hu2, if_neg hc]
    exact c1_reg_blank_aux pre b rest defn _
      (fun j hj => hpre j (List.mem_cons_of_mem i hj)) hb hu hc

theorem c1_reg_baddefn_aux (i : String) (rest : List String) (defn : Handler)
    (tbl : List (String × Handler)) (hi : trimChars i ≠ "")
    (hbad : defn.onUpdate ≠ JSField.func ∨ defn.onClear = JSField.nonFunc) :
    ∃ e, NTree.registerHandlerIDs (i :: rest) defn tbl = (eraseKey tbl i, some e) := by
  cases hu : defn.onUpdate with
  | absent =>
    exact ⟨NTree.RegError.noOnUpdate, by simp [NTree.registerHandlerIDs, hi, hu]⟩
  | nonFunc =>
    exact ⟨NTree.RegError.onUpdateNotFunction, by simp [NTree.registerHandlerIDs, hi, hu]⟩
  | func =>
    rcases hbad with hbad | hbad
    · exact absurd hu hbad
    · exact ⟨NTree.RegError.onClearNotFunction, by simp [NTree.registerHandlerIDs, hi, hu, hbad]⟩

/-- C1 counterexample: `registerHandler` is not atomic.  With an empty
handler table, `registerHandler(["a", ""], goodDef)` throws (blank second
id) yet has already committed the entry for `"a"`; and with a pre-existing
entry under `"a"`, `registerHandler(["a"], defWithoutOnUpdate)` throws and
has already deleted that entry.  In both cases the table after the failing
call differs from the table before it, contradicting the claim. -/
theorem c1_counterexample :
    (((NTree.registerHandlerIDs ["a", ""] NTree.defaultHandlerDefn []).2).isSome = true
      ∧ (NTree.registerHandlerIDs ["a", ""] NTree.defaultHandlerDefn []).1 ≠ [])
    ∧ (((NTree.registerHandlerIDs ["a"]
          { NTree.defaultHandlerDefn with onUpdate := JSField.absent }
          [("a", NTree.defaultHandlerDefn)]).2).isSome = true
      ∧ (NTree.registerHandlerIDs ["a"]
          { NTree.defaultHandlerDefn with onUpdate := JSField.absent }
          [("a", NTree.defaultHandlerDefn)]).1 ≠ [("a", NTree.defaultHandlerDefn)]) := by
  decide

/-- C1 amended: a multi-id `registerHandler` call is applied per id, left
to right, and aborts at the first validation failure.  Ids processed before
the failure stay committed (each replacing any prior entry), so the call is
not atomic: (1) with a valid definition, a blank id at any position leaves
every earlier id committed; (2) with an invalid definition, the call fails
at the first id and that id's pre-existing entry has already been deleted. -/
theorem c1_amended_registration_not_atomic :
    (∀ (pre : List String) (b : String) (rest : List String) (defn : Handler)
        (tbl : List (String × Handler)),
        (∀ i ∈ pre, trimChars i ≠ "") → trimChars b = "" →
        defn.onUpdate = JSField.func → defn.onClear ≠ JSField.nonFunc →
        NTree.registerHandlerIDs (pre ++ b :: rest) defn tbl =
          (NTree.commitIDs pre defn tbl, some NTree.RegError.blankID))
    ∧ (∀ (i : String) (rest : List String) (defn : Handler)
        (tbl : List (String × Handler)),
        trimChars i ≠ "" → (defn.onUpdate ≠ JSField.func ∨ defn.onClear = JSField.nonFunc) →
        ∃ e, NTree.registerHandlerIDs (i :: rest) defn tbl = (eraseKey tbl i, some e)) :=
  ⟨c1_reg_blank_aux, c1_reg_baddefn_aux⟩

/-- C1 witness: both amended conjuncts applied at concrete inputs. -/
theorem c1_amended_witness :
    (NTree.registerHandlerIDs ["a", ""] NTree.defaultHandlerDefn [] =
      (NTree.commitIDs ["a"] NTree.defaultHandlerDefn [], some NTree.RegError.blankID))
    ∧ ∃ e, NTree.registerHandlerIDs ["a"]
        { NTree.defaultHandlerDefn with onUpdate := JSField.absent }
        [("a", NTree.defaultHandlerDefn)] =
        (eraseKey [("a", NTree.defaultHandlerDefn)] "a", some e) :=
  ⟨c1_amended_registration_not_atomic.1 ["a"] "" [] NTree.defaultHandlerDefn []
      (by decide) (by decide) rfl (by decide),
   c1_amended_registration_not_atomic.2 "a" []
      { NTree.defaultHandlerDefn with onUpdate := JSField.absent }
      [("a", NTree.defaultHandlerDefn)] (by decide) (Or.inl (by decide))⟩

/-- C2 counterexample: with the repository not containing `"t"` but the
state store containing it (the normal situation after a host save/restore,
since the repository is session-scoped while the state store persists),
`deleteNTree("t")` returns `false` and the state entry remains — the
short-circuit `&&` never runs the state-store deletion.  This contradicts
the claim that after a `false` return neither entry remains. -/
theorem c2_counterexample :
    (NTree.deleteNTree "t" ([] : List (String × Nat)) [("t", (0 : Nat))]).1 = false
    ∧ hasKey (NTree.deleteNTree "t" ([] : List (String × Nat)) [("t", (0 : Nat))]).2.2 "t"
        = true := by
  decide

/-- C2 amended: `deleteNTree` returns `true` iff the id is in both tables
(and then removes both).  It always removes the registry entry when
present, but removes the state entry only when the registry entry existed;
after a `false` return caused by a missing registry entry, a pre-existing
state entry remains untouched. -/
theorem c2_amended_short_circuit {α β : Type _} (id : String)
    (repo : List (String × α)) (store : List (String × β)) :
    NTree.deleteNTree id repo store =
      (hasKey repo id && hasKey store id, eraseKey repo id,
       if hasKey repo id then eraseKey store id else store)
    ∧ (hasKey repo id = false →
        (NTree.deleteNTree id repo store).1 = false
        ∧ (NTree.deleteNTree id repo store).2.2 = store) := by
  constructor
  · unfold NTree.deleteNTree
    by_cases h : hasKey repo id
    · simp [h]
    · have h' : hasKey repo id = false := by simpa using h
      simp [h', eraseKey_of_hasKey_false repo h']
  · intro h
    unfold NTree.deleteNTree
    simp [h]

/-- C2 witness: the amended theorem applied at a concrete input where the
registry entry is absent and a state entry exists. -/
theorem c2_amended_witness :
    (NTree.deleteNTree "t" ([] : List (String × Nat)) [("t", (5 : Nat))]).1 = false
    ∧ (NTree.deleteNTree "t" ([] : List (String × Nat)) [("t", (5 : Nat))]).2.2 =
        [("t", (5 : Nat))] :=
  (c2_amended_short_circuit "t" ([] : List (String × Nat)) [("t", (5 : Nat))]).2 (by decide)

/-- C10: constructing a tree whose id is already registered does not fail;
it replaces the registry entry with the fresh tree (carrying only the
auto-registered default handler) and unconditionally overwrites the state
entry with a fresh state whose visit log and pending delta are empty, so
every branch cursor of that tree reads as 0 again. -/
theorem c10_construct_overwrites (id : String) (repo : List (String × NTree.HandlersTable))
    (store : List (String × NTree.TreeState)) (hid : trimChars id ≠ "")
    (hreg : hasKey repo id = true) :
    ∃ repo' store', NTree.constructTree id repo store = some (repo', store')
      ∧ lookupKey repo' id =
          some [(NTree.defaultHandlerID,
                 { NTree.defaultHandlerDefn with id := NTree.defaultHandlerID })]
      ∧ lookupKey store' id = some ⟨id, [], []⟩
      ∧ ∀ (b : String) (st' : NTree.TreeState), lookupKey store' id = some st' →
          (lookupKey st'.log b).getD 0 = 0 := by
  have hct : NTree.constructTree id repo store =
      some (setKey repo id
              [(NTree.defaultHandlerID,
                { NTree.defaultHandlerDefn with id := NTree.defaultHandlerID })],
            setKey store id ⟨id, [], []⟩) := by
    unfold NTree.constructTree
    rw [if_neg hid]
    rfl
  refine ⟨_, _, hct, ?_, ?_, ?_⟩
  · rw [lookupKey_setKey_self]
  · rw [lookupKey_setKey_self]
  · intro b st' hst'
    rw [lookupKey_setKey_self] at hst'
    cases hst'
    simp [lookupKey]

/-- C10 witness: re-construction over an existing registry entry at a
concrete input. -/
theorem c10_witness :
    ∃ repo' store',
      NTree.constructTree "t" [("t", ([] : NTree.HandlersTable))]
        ([("t", (⟨"t", [("b", 7)], [("p", Value.int 1)]⟩ : NTree.TreeState))]) =
        some (repo', store')
      ∧ lookupKey repo' "t" =
          some [(NTree.defaultHandlerID,
                 { NTree.defaultHandlerDefn with id := NTree.defaultHandlerID })]
      ∧ lookupKey store' "t" = some ⟨"t", [], []⟩
      ∧ ∀ (b : String) (st' : NTree.TreeState), lookupKey store' "t" = some st' →
          (lookupKey st'.log b).getD 0 = 0 :=
  c10_construct_overwrites "t" [("t", ([] : NTree.HandlersTable))]
    [("t", (⟨"t", [("b", 7)], [("p", Value.int 1)]⟩ : NTree.TreeState))]
    (by decide) (by decide)

/-- C4: when the delta maps a provider's id to the clear sentinel, the
dispatch of that provider consists of exactly its `onClear(ctx)` call when
`onClear` is set, and of nothing when it is not — `onUpdate` is never
invoked for it. -/
theorem c4_clear_sentinel (hs : List Handler) (p : Handler) (δ : Delta) (ctx : Value)
    (heap : Heap) (hnd : (hs.map Handler.id).Nodup) (hp : p ∈ hs)
    (hδ : lookupKey δ p.id = some Value.sentinel) :
    callsFor p.id (NTree.update hs δ ctx heap).calls =
      (if p.onClear = JSField.absent then [] else [Call.clr p.id ctx]) := by
  have hconst : ∀ hp' : Heap, (NTree.dispatchOne δ ctx p hp').1 = NTree.clearCalls p ctx := by
    intro hp'
    rw [dispatchOne_lookup_some ctx p hp' hδ, dispatchVal_sentinel]
  rw [update_callsFor_const δ ctx p (NTree.clearCalls p ctx) hconst hs heap hnd hp]
  unfold NTree.clearCalls callsFor
  split_ifs <;> simp [Call.cid]

/-- C4 witness: a single registered provider with an `onClear`, updated
with the sentinel, receives exactly one clear call and no update call. -/
theorem c4_witness :
    callsFor "p" (NTree.update [sampleHandler] [("p", Value.sentinel)]
      Value.ctxVal []).calls = [Call.clr "p" Value.ctxVal] := by
  simpa [sampleHandler] using
    c4_clear_sentinel [sampleHandler] sampleHandler [("p", Value.sentinel)]
      Value.ctxVal [] (by decide) (by decide) (by decide)

/-- C5: for a provider with `skipArgs = false`, a delta value that is an
array leads to `onUpdate(v1, ..., vn, ctx)` — the array's elements spread
with the context appended — and a non-array, non-sentinel value `v` leads
to `onUpdate(v, ctx)`, i.e. `v` wrapped as a one-element list with the
context appended.  (For the array case the hypothesis that no other
provider's delta entry aliases the same array mirrors the claim's premise
that the delta maps `p`'s id to the list `[v1, ..., vn]`.) -/
theorem c5_skiparg_false_shaping (hs : List Handler) (p : Handler) (δ : Delta)
    (ctx : Value) (heap : Heap) (hnd : (hs.map Handler.id).Nodup) (hp : p ∈ hs)
    (hskip : p.skipArgs = false) :
    (∀ (r : Nat) (vs : List Value),
       lookupKey δ p.id = some (Value.arrRef r) → heap.get? r = some vs →
       (∀ q ∈ hs, q.id ≠ p.id → lookupKey δ q.id ≠ some (Value.arrRef r)) →
       callsFor p.id (NTree.update hs δ ctx heap).calls = [Call.upd p.id (vs ++ [ctx])])
    ∧ (∀ v : Value, lookupKey δ p.id = some v → v ≠ Value.sentinel →
        (∀ r, v ≠ Value.arrRef r) →
        callsFor p.id (NTree.update hs δ ctx heap).calls = [Call.upd p.id [v, ctx]]) := by
  constructor
  · intro r vs hl hr hna
    exact (update_callsFor_arr δ ctx p r hskip hl hs heap vs hnd hp hr hna).1
  · intro v hl hsent harr
    have hconst : ∀ hp' : Heap,
        (NTree.dispatchOne δ ctx p hp').1 = [Call.upd p.id [v, ctx]] := by
      intro hp'
      rw [dispatchOne_lookup_some ctx p hp' hl,
          dispatchVal_scalar p ctx hp' hsent harr hskip]
    rw [update_callsFor_const δ ctx p [Call.upd p.id [v, ctx]] hconst hs heap hnd hp]
    simp [callsFor, Call.cid]

/-- C5 witness: `update({p: [1, 2]}, ctx)` yields `onUpdate(1, 2, ctx)` and
`update({p: 5}, ctx)` yields `onUpdate(5, ctx)` for a concrete provider. -/
theorem c5_witness :
    callsFor "p" (NTree.update [sampleHandler] [("p", Value.arrRef 0)]
        Value.ctxVal [[Value.int 1, Value.int 2]]).calls =
      [Call.upd "p" [Value.int 1, Value.int 2, Value.ctxVal]]
    ∧ callsFor "p" (NTree.update [sampleHandler] [("p", Value.int 5)]
        Value.ctxVal []).calls = [Call.upd "p" [Value.int 5, Value.ctxVal]] := by
  constructor
  · simpa [sampleHandler] using
      (c5_skiparg_false_shaping [sampleHandler] sampleHandler
          [("p", Value.arrRef 0)] Value.ctxVal [[Value.int 1, Value.int 2]]
          (by decide) (by decide) rfl).1 0 [Value.int 1, Value.int 2]
        (by decide) (by decide) (by decide)
  · simpa [sampleHandler] using
      (c5_skiparg_false_shaping [sampleHandler] sampleHandler
          [("p", Value.int 5)] Value.ctxVal [] (by decide) (by decide) rfl).2
        (Value.int 5) (by decide) (by decide) (fun r h => Value.noConfusion h)

/-- C3: when the argument text of the selected leaf fails to evaluate, the
visitation returns a malformed-argument error carrying the leaf index
(`current - 1`) and the raw argument text; no dispatch happens and the
whole tree state (in particular the persisted cursor for the branch), the
heap and the handler records are exactly their pre-visitation values. -/
theorem c3_malformed_arg_aborts (evalArgs : String → Option Delta) (payload : List Leaf)
    (rep : RepeatConfig) (branchID : String) (ctx : Value) (handlers : List Handler)
    (st : NTree.TreeState) (heap : Heap) {cur : Nat} {chunk : Leaf}
    (hsel : selectCurrent payload.length rep ((lookupKey st.log branchID).getD 0) = some cur)
    (hchunk : payload.get? cur = some chunk)
    (heval : evalArgs (leafArgsTxt chunk) = none) :
    visitTree evalArgs payload rep branchID ctx handlers st heap =
      ⟨VisitOutcome.err (VisitError.malformedArg ((cur : Int) - 1) (leafArgsTxt chunk)),
       st, heap, handlers⟩
    ∧ lookupKey (visitTree evalArgs payload rep branchID ctx handlers st heap).state.log
        branchID = lookupKey st.log branchID := by
  have h := visitTree_malformed evalArgs payload rep branchID ctx handlers st heap
    hsel hchunk heval
  exact ⟨h, by rw [h]⟩

/-- C3 witness: a leaf whose argument text `"@#"` fails to evaluate aborts
the visitation with the malformed-argument error for leaf index 0 and
leaves state, heap and handlers untouched. -/
theorem c3_witness :
    visitTree (fun _ => none) [⟨"A", ""⟩, ⟨"B", "@#"⟩] RepeatConfig.repeatLast "b"
        Value.ctxVal [] ⟨"t", [], []⟩ [] =
      ⟨VisitOutcome.err (VisitError.malformedArg 0 "@#"), ⟨"t", [], []⟩, [], []⟩
    ∧ lookupKey (visitTree (fun _ => none) [⟨"A", ""⟩, ⟨"B", "@#"⟩]
        RepeatConfig.repeatLast "b" Value.ctxVal [] ⟨"t", [], []⟩ []).state.log "b" =
        lookupKey ([] : List (String × Nat)) "b" := by
  have ht : leafArgsTxt ⟨"B", "@#"⟩ = "@#" := by decide
  have h := @c3_malformed_arg_aborts (fun _ => none) [⟨"A", ""⟩, ⟨"B", "@#"⟩]
    RepeatConfig.repeatLast "b" Value.ctxVal [] ⟨"t", [], []⟩ [] 1 ⟨"B", "@#"⟩
    (by decide) (by decide) rfl
  rw [ht] at h
  exact h

/-- C6: on a branch with 3 leaves (payload indices 0, 1, 2, index 0 being
the branch preamble) under policy `norepeat`, starting with no cursor
entry, the first two visitations advance the cursor to 1 and then 2; the
4th visitation is a silent stop: no dispatch, no error, no mutation of
state, heap or handlers, and the cursor stays 2. -/
theorem c6_norepeat_three_leaves (evalArgs : String → Option Delta) (l0 l1 l2 : Leaf)
    (branchID : String) (ctx : Value) (handlers : List Handler)
    (st0 : NTree.TreeState) (heap0 : Heap) {d1 d2 : Delta}
    (h0 : (lookupKey st0.log branchID).getD 0 = 0)
    (h1 : evalArgs (leafArgsTxt l1) = some d1)
    (h2 : evalArgs (leafArgsTxt l2) = some d2) :
    let visit := visitN evalArgs [l0, l1, l2] RepeatConfig.noRepeat branchID ctx
      handlers st0 heap0
    lookupKey (visit 1).state.log branchID = some 1
    ∧ lookupKey (visit 2).state.log branchID = some 2
    ∧ (visit 4).outcome = VisitOutcome.silent
    ∧ visit 4 = ⟨VisitOutcome.silent, (visit 3).state, (visit 3).heap, (visit 3).handlers⟩
    ∧ lookupKey (visit 4).state.log branchID = some 2 := by
  intro visit
  have hv1 : visit 1 = visitTree evalArgs [l0, l1, l2] RepeatConfig.noRepeat branchID ctx
      handlers st0 heap0 := rfl
  have hsel1 : selectCurrent ([l0, l1, l2] : List Leaf).length RepeatConfig.noRepeat
      ((lookupKey st0.log branchID).getD 0) = some 1 := by rw [h0]; rfl
  have e1 := visitTree_dispatch evalArgs [l0, l1, l2] RepeatConfig.noRepeat branchID ctx
    handlers st0 heap0 hsel1 rfl h1
  have hs1 : (visit 1).state =
      ⟨st0.id, setKey st0.log branchID 1, mergeKeys st0.delta d1⟩ := by
    rw [hv1, e1]
  have hl1 : (lookupKey (visit 1).state.log branchID).getD 0 = 1 := by
    rw [hs1]
    show (lookupKey (setKey st0.log branchID 1) branchID).getD 0 = 1
    rw [lookupKey_setKey_self]
    rfl
  have hc1 : lookupKey (visit 1).state.log branchID = some 1 := by
    rw [hs1]
    exact lookupKey_setKey_self st0.log branchID 1
  have hv2 : visit 2 = visitTree evalArgs [l0, l1, l2] RepeatConfig.noRepeat branchID ctx
      (visit 1).handlers (visit 1).state (visit 1).heap := rfl
  have hsel2 : selectCurrent ([l0, l1, l2] : List Leaf).length RepeatConfig.noRepeat
      ((lookupKey (visit 1).state.log branchID).getD 0) = some 2 := by rw [hl1]; rfl
  have e2 := visitTree_dispatch evalArgs [l0, l1, l2] RepeatConfig.noRepeat branchID ctx
    (visit 1).handlers (visit 1).state (visit 1).heap hsel2 rfl h2
  have hs2 : (visit 2).state =
      ⟨(visit 1).state.id, setKey (visit 1).state.log branchID 2,
       mergeKeys (visit 1).state.delta d2⟩ := by
    rw [hv2, e2]
  have hc2 : lookupKey (visit 2).state.log branchID = some 2 := by
    rw [hs2]
    exact lookupKey_setKey_self (visit 1).state.log branchID 2
  have hl2 : (lookupKey (visit 2).state.log branchID).getD 0 = 2 := by
    rw [hc2]
    rfl
  have hv3 : visit 3 = visitTree evalArgs [l0, l1, l2] RepeatConfig.noRepeat branchID ctx
      (visit 2).handlers (visit 2).state (visit 2).heap := rfl
  have hsel3 : selectCurrent ([l0, l1, l2] : List Leaf).length RepeatConfig.noRepeat
      ((lookupKey (visit 2).state.log branchID).getD 0) = none := by rw [hl2]; rfl
  have hr3 : visit 3 = ⟨VisitOutcome.silent, (visit 2).state, (visit 2).heap,
      (visit 2).handlers⟩ := by
    rw [hv3]
    exact visitTree_silent evalArgs [l0, l1, l2] RepeatConfig.noRepeat branchID ctx
      (visit 2).handlers (visit 2).state (visit 2).heap hsel3
  have hl3 : (lookupKey (visit 3).state.log branchID).getD 0 = 2 := by
    rw [hr3]
    exact hl2
  have hv4 : visit 4 = visitTree evalArgs [l0, l1, l2] RepeatConfig.noRepeat branchID ctx
      (visit 3).handlers (visit 3).state (visit 3).heap := rfl
  have hsel4 : selectCurrent ([l0, l1, l2] : List Leaf).length RepeatConfig.noRepeat
      ((lookupKey (visit 3).state.log branchID).getD 0) = none := by rw [hl3]; rfl
  have hr4 : visit 4 = ⟨VisitOutcome.silent, (visit 3).state, (visit 3).heap,
      (visit 3).handlers⟩ := by
    rw [hv4]
    exact visitTree_silent evalArgs [l0, l1, l2] RepeatConfig.noRepeat branchID ctx
      (visit 3).handlers (visit 3).state (visit 3).heap hsel4
  refine ⟨hc1, hc2, by rw [hr4], hr4, ?_⟩
  rw [hr4]
  show lookupKey (visit 3).state.log branchID = some 2
  rw [hr3]
  exact hc2

/-- C6 witness: the theorem applied to a concrete 3-leaf branch with empty
argument texts, no extra handlers and a fresh state. -/
theorem c6_witness :
    let visit := visitN evalEmptyObj [⟨"P", ""⟩, ⟨"A", ""⟩, ⟨"B", ""⟩]
      RepeatConfig.noRepeat "b" Value.ctxVal [] ⟨"t", [], []⟩ []
    lookupKey (visit 1).state.log "b" = some 1
    ∧ lookupKey (visit 2).state.log "b" = some 2
    ∧ (visit 4).outcome = VisitOutcome.silent
    ∧ visit 4 = ⟨VisitOutcome.silent, (visit 3).state, (visit 3).heap, (visit 3).handlers⟩
    ∧ lookupKey (visit 4).state.log "b" = some 2 :=
  @c6_norepeat_three_leaves evalEmptyObj ⟨"P", ""⟩ ⟨"A", ""⟩ ⟨"B", ""⟩ "b" Value.ctxVal []
    ⟨"t", [], []⟩ [] [] [] (by decide) (by decide) (by decide)

/-- C7 counterexample: on a concrete 3-leaf branch (payload indices 0, 1, 2)
with policy `repeat`, the 4th visitation does NOT leave the cursor at 1:
after four visitations the persisted cursor is 2.  The reset to leaf 1
happens on the 3rd visitation (the one that would advance past the end),
and the 4th visitation advances normally to leaf 2. -/
theorem c7_counterexample :
    lookupKey (visitN evalEmptyObj [⟨"P", ""⟩, ⟨"A", ""⟩, ⟨"B", ""⟩]
        RepeatConfig.repeatLoop "b" Value.ctxVal [] ⟨"t", [], []⟩ [] 4).state.log "b"
      = some 2
    ∧ (2 : Nat) ≠ 1 := by
  constructor
  · decide
  · decide

/-- C7 amended: on a 3-leaf branch (payload indices 0, 1, 2) under policy
`repeat`, starting from cursor 0, the visitation that would advance past
the end — here the 3rd — resets to leaf index 1 (persisting cursor = 1),
not to leaf 0; the 4th visitation then reveals leaf 2 again (persisting
cursor = 2). -/
theorem c7_amended_resets_on_overflow (evalArgs : String → Option Delta)
    (l0 l1 l2 : Leaf) (branchID : String) (ctx : Value) (handlers : List Handler)
    (st0 : NTree.TreeState) (heap0 : Heap) {d1 d2 : Delta}
    (h0 : (lookupKey st0.log branchID).getD 0 = 0)
    (h1 : evalArgs (leafArgsTxt l1) = some d1)
    (h2 : evalArgs (leafArgsTxt l2) = some d2) :
    let visit := visitN evalArgs [l0, l1, l2] RepeatConfig.repeatLoop branchID ctx
      handlers st0 heap0
    lookupKey (visit 1).state.log branchID = some 1
    ∧ lookupKey (visit 2).state.log branchID = some 2
    ∧ revealedIdx (visit 3) = some 1
    ∧ lookupKey (visit 3).state.log branchID = some 1
    ∧ revealedIdx (visit 4) = some 2
    ∧ lookupKey (visit 4).state.log branchID = some 2 := by
  intro visit
  have hv1 : visit 1 = visitTree evalArgs [l0, l1, l2] RepeatConfig.repeatLoop branchID ctx
      handlers st0 heap0 := rfl
  have hsel1 : selectCurrent ([l0, l1, l2] : List Leaf).length RepeatConfig.repeatLoop
      ((lookupKey st0.log branchID).getD 0) = some 1 := by rw [h0]; rfl
  have e1 := visitTree_dispatch evalArgs [l0, l1, l2] RepeatConfig.repeatLoop branchID ctx
    handlers st0 heap0 hsel1 rfl h1
  have hs1 : (visit 1).state =
      ⟨st0.id, setKey st0.log branchID 1, mergeKeys st0.delta d1⟩ := by
    rw [hv1, e1]
  have hc1 : lookupKey (visit 1).state.log branchID = some 1 := by
    rw [hs1]
    exact lookupKey_setKey_self st0.log branchID 1
  have hl1 : (lookupKey (visit 1).state.log branchID).getD 0 = 1 := by rw [hc1]; rfl
  have hv2 : visit 2 = visitTree evalArgs [l0, l1, l2] RepeatConfig.repeatLoop branchID ctx
      (visit 1).handlers (visit 1).state (visit 1).heap := rfl
  have hsel2 : selectCurrent ([l0, l1, l2] : List Leaf).length RepeatConfig.repeatLoop
      ((lookupKey (visit 1).state.log branchID).getD 0) = some 2 := by rw [hl1]; rfl
  have e2 := visitTree_dispatch evalArgs [l0, l1, l2] RepeatConfig.repeatLoop branchID ctx
    (visit 1).handlers (visit 1).state (visit 1).heap hsel2 rfl h2
  have hs2 : (visit 2).state =
      ⟨(visit 1).state.id, setKey (visit 1).state.log branchID 2,
       mergeKeys (visit 1).state.delta d2⟩ := by
    rw [hv2, e2]
  have hc2 : lookupKey (visit 2).state.log branchID = some 2 := by
    rw [hs2]
    exact lookupKey_setKey_self (visit 1).state.log branchID 2
  have hl2 : (lookupKey (visit 2).state.log branchID).getD 0 = 2 := by rw [hc2]; rfl
  have hv3 : visit 3 = visitTree evalArgs [l0, l1, l2] RepeatConfig.repeatLoop branchID ctx
      (visit 2).handlers (visit 2).state (visit 2).heap := rfl
  have hsel3 : selectCurrent ([l0, l1, l2] : List Leaf).length RepeatConfig.repeatLoop
      ((lookupKey (visit 2).state.log branchID).getD 0) = some 1 := by rw [hl2]; rfl
  have e3 := visitTree_dispatch evalArgs [l0, l1, l2] RepeatConfig.repeatLoop branchID ctx
    (visit 2).handlers (visit 2).state (visit 2).heap hsel3 rfl h1
  have hs3 : (visit 3).state =
      ⟨(visit 2).state.id, setKey (visit 2).state.log branchID 1,
       mergeKeys (visit 2).state.delta d1⟩ := by
    rw [hv3, e3]
  have hi3 : revealedIdx (visit 3) = some 1 := by
    rw [hv3, e3]
    rfl
  have hc3 : lookupKey (visit 3).state.log branchID = some 1 := by
    rw [hs3]
    exact lookupKey_setKey_self (visit 2).state.log branchID 1
  have hl3 : (lookupKey (visit 3).state.log branchID).getD 0 = 1 := by rw [hc3]; rfl
  have hv4 : visit 4 = visitTree evalArgs [l0, l1, l2] RepeatConfig.repeatLoop branchID ctx
      (visit 3).handlers (visit 3).state (visit 3).heap := rfl
  have hsel4 : selectCurrent ([l0, l1, l2] : List Leaf).length RepeatConfig.repeatLoop
      ((lookupKey (visit 3).state.log branchID).getD 0) = some 2 := by rw [hl3]; rfl
  have e4 := visitTree_dispatch evalArgs [l0, l1, l2] RepeatConfig.repeatLoop branchID ctx
    (visit 3).handlers (visit 3).state (visit 3).heap hsel4 rfl h2
  have hs4 : (visit 4).state =
      ⟨(visit 3).state.id, setKey (visit 3).state.log branchID 2,
       mergeKeys (visit 3).state.delta d2⟩ := by
    rw [hv4, e4]
  have hi4 : revealedIdx (visit 4) = some 2 := by
    rw [hv4, e4]
    rfl
  have hc4 : lookupKey (visit 4).state.log branchID = some 2 := by
    rw [hs4]
    exact lookupKey_setKey_self (visit 3).state.log branchID 2
  exact ⟨hc1, hc2, hi3, hc3, hi4, hc4⟩

/-- C7 witness: the amended theorem applied to a concrete 3-leaf branch. -/
theorem c7_amended_witness :
    let visit := visitN evalEmptyObj [⟨"P", ""⟩, ⟨"A", ""⟩, ⟨"B", ""⟩]
      RepeatConfig.repeatLoop "b" Value.ctxVal [] ⟨"t", [], []⟩ []
    lookupKey (visit 1).state.log "b" = some 1
    ∧ lookupKey (visit 2).state.log "b" = some 2
    ∧ revealedIdx (visit 3) = some 1
    ∧ lookupKey (visit 3).state.log "b" = some 1
    ∧ revealedIdx (visit 4) = some 2
    ∧ lookupKey (visit 4).state.log "b" = some 2 :=
  @c7_amended_resets_on_overflow evalEmptyObj ⟨"P", ""⟩ ⟨"A", ""⟩ ⟨"B", ""⟩ "b"
    Value.ctxVal [] ⟨"t", [], []⟩ [] [] [] (by decide) (by decide) (by decide)

/-- C8 counterexample: the dispatch delta is NOT built by setting the
default-provider key to the leaf's raw content last.  `Object.assign`
starts from `{__default: contents}` and then copies the accumulator over
it, so an authored `__default` entry (here set by leaf 1's argument object
and persisted in the accumulator) wins over leaf 2's raw content: the
2nd visitation dispatches `__default = "X"`, not its raw content `"L2"`. -/
theorem c8_counterexample :
    (dispatchDeltaOf (visitN
        (fun s => if s = "x" then some [("__default", Value.str "X")]
                  else if s = "\x7b\x7d" then some ([] : Delta) else none)
        [⟨"P", ""⟩, ⟨"L1", "x"⟩, ⟨"L2", ""⟩] RepeatConfig.repeatLast "b" Value.ctxVal []
        ⟨"t", [], []⟩ [] 2)).bind (fun d => lookupKey d NTree.defaultHandlerID)
      = some (Value.str "X")
    ∧ Value.str "X" ≠ Value.str "L2" := by
  constructor
  · decide
  · decide

/-- C8 amended: a provider-targeted key `k` set by leaf N's argument
object persists into the dispatch delta of leaf N+1 unless overwritten;
the dispatch delta is built by merging the parsed per-leaf object into the
persisted accumulator (per-leaf keys win) and starting from a map holding
the leaf's raw content under the default-provider key — so the default key
carries the raw content only when the merged accumulator itself has no
entry under the default key (an accumulator entry wins). -/
theorem c8_amended_delta_construction (evalArgs : String → Option Delta)
    (payload : List Leaf) (rep : RepeatConfig) (branchID : String) (ctx : Value)
    (handlers : List Handler) (st0 : NTree.TreeState) (heap0 : Heap)
    {m : Nat} {chunk1 chunk2 : Leaf} {d1 d2 : Delta} {k : String} {v : Value}
    (hm : (lookupKey st0.log branchID).getD 0 = m)
    (hc1 : payload.get? (m + 1) = some chunk1)
    (hc2 : payload.get? (m + 1 + 1) = some chunk2)
    (h1 : evalArgs (leafArgsTxt chunk1) = some d1)
    (h2 : evalArgs (leafArgsTxt chunk2) = some d2)
    (hk : lookupKey d1 k = some v)
    (hnd1 : KeysNodup d1)
    (hnd0 : KeysNodup st0.delta)
    (hk2 : hasKey d2 k = false) :
    dispatchDeltaOf (visitN evalArgs payload rep branchID ctx handlers st0 heap0 2) =
      some (mergeKeys [(NTree.defaultHandlerID, Value.str chunk2.contents)]
        (mergeKeys (visitN evalArgs payload rep branchID ctx handlers st0 heap0 1).state.delta d2))
    ∧ lookupKey (mergeKeys [(NTree.defaultHandlerID, Value.str chunk2.contents)]
        (mergeKeys (visitN evalArgs payload rep branchID ctx handlers st0 heap0 1).state.delta d2)) k
      = some v
    ∧ (∀ key, lookupKey (mergeKeys [(NTree.defaultHandlerID, Value.str chunk2.contents)]
        (mergeKeys (visitN evalArgs payload rep branchID ctx handlers st0 heap0 1).state.delta d2)) key =
        match lookupKey (mergeKeys
            (visitN evalArgs payload rep branchID ctx handlers st0 heap0 1).state.delta d2) key with
        | some w => some w
        | none => if key = NTree.defaultHandlerID then some (Value.str chunk2.contents)
                  else none) := by
  have hlt1 : m + 1 < payload.length := (List.get?_eq_some.mp hc1).choose
  have hne1 : ¬(m + 1 = payload.length) := Nat.ne_of_lt hlt1
  have hlt2 : m + 1 + 1 < payload.length := (List.get?_eq_some.mp hc2).choose
  have hne2 : ¬(m + 1 + 1 = payload.length) := Nat.ne_of_lt hlt2
  have hv1 : visitN evalArgs payload rep branchID ctx handlers st0 heap0 1 =
      visitTree evalArgs payload rep branchID ctx handlers st0 heap0 := rfl
  have hsel1 : selectCurrent payload.length rep ((lookupKey st0.log branchID).getD 0) =
      some (m + 1) := by
    rw [hm]
    unfold selectCurrent
    rw [if_neg hne1]
  have e1 := visitTree_dispatch evalArgs payload rep branchID ctx handlers st0 heap0
    hsel1 hc1 h1
  have hst1 : (visitN evalArgs payload rep branchID ctx handlers st0 heap0 1).state =
      ⟨st0.id, setKey st0.log branchID (m + 1), mergeKeys st0.delta d1⟩ := by
    rw [hv1, e1]
  have hsd1 : (visitN evalArgs payload rep branchID ctx handlers st0 heap0 1).state.delta =
      mergeKeys st0.delta d1 := by rw [hst1]
  have hl1 : (lookupKey
      (visitN evalArgs payload rep branchID ctx handlers st0 heap0 1).state.log
      branchID).getD 0 = m + 1 := by
    rw [hst1]
    show (lookupKey (setKey st0.log branchID (m + 1)) branchID).getD 0 = m + 1
    rw [lookupKey_setKey_self]
    rfl
  have hv2 : visitN evalArgs payload rep branchID ctx handlers st0 heap0 2 =
      visitTree evalArgs payload rep branchID ctx
        (visitN evalArgs payload rep branchID ctx handlers st0 heap0 1).handlers
        (visitN evalArgs payload rep branchID ctx handlers st0 heap0 1).state
        (visitN evalArgs payload rep branchID ctx handlers st0 heap0 1).heap := rfl
  have hsel2 : selectCurrent payload.length rep
      ((lookupKey (visitN evalArgs payload rep branchID ctx handlers st0 heap0 1).state.log
        branchID).getD 0) = some (m + 1 + 1) := by
    rw [hl1]
    unfold selectCurrent
    rw [if_neg hne2]
  have e2 := visitTree_dispatch evalArgs payload rep branchID ctx
    (visitN evalArgs payload rep branchID ctx handlers st0 heap0 1).handlers
    (visitN evalArgs payload rep branchID ctx handlers st0 heap0 1).state
    (visitN evalArgs payload rep branchID ctx handlers st0 heap0 1).heap
    hsel2 hc2 h2
  have hnd_acc1 : KeysNodup (mergeKeys st0.delta d1) := keysNodup_mergeKeys d1 st0.delta hnd0
  have hacc1k : lookupKey (mergeKeys st0.delta d1) k = some v :=
    lookupKey_mergeKeys_present d1 st0.delta hnd1 hk
  have hacc2k : lookupKey (mergeKeys (mergeKeys st0.delta d1) d2) k = some v := by
    rw [lookupKey_mergeKeys_absent d2 (mergeKeys st0.delta d1) hk2]
    exact hacc1k
  have hnd_acc2 : KeysNodup (mergeKeys (mergeKeys st0.delta d1) d2) :=
    keysNodup_mergeKeys d2 (mergeKeys st0.delta d1) hnd_acc1
  refine ⟨?_, ?_, ?_⟩
  · rw [hv2, e2]
    rfl
  · rw [hsd1]
    exact lookupKey_mergeKeys_present (mergeKeys (mergeKeys st0.delta d1) d2)
      [(NTree.defaultHandlerID, Value.str chunk2.contents)] hnd_acc2 hacc2k
  · intro key
    rw [hsd1]
    cases hlk : lookupKey (mergeKeys (mergeKeys st0.delta d1) d2) key with
    | some w =>
      rw [lookupKey_mergeKeys_present (mergeKeys (mergeKeys st0.delta d1) d2)
        [(NTree.defaultHandlerID, Value.str chunk2.contents)] hnd_acc2 hlk]
    | none =>
      have hks : hasKey (mergeKeys (mergeKeys st0.delta d1) d2) key = false := by
        unfold hasKey
        rw [hlk]
        rfl
      rw [lookupKey_mergeKeys_absent (mergeKeys (mergeKeys st0.delta d1) d2)
        [(NTree.defaultHandlerID, Value.str chunk2.contents)] hks]
      by_cases hkd : key = NTree.defaultHandlerID
      · simp [lookupKey, hkd]
      · have hkd' : ¬NTree.defaultHandlerID = key := fun h => hkd h.symm
        simp [lookupKey, hkd, hkd']

/-- C8 witness: the amended theorem applied at a concrete branch whose
leaf 1 argument object targets provider `"sp"`; the value persists into
leaf 2's dispatch delta and the default key carries leaf 2's raw content
(the accumulator has no default-key entry here). -/
theorem c8_amended_witness :
    dispatchDeltaOf (visitN evalSpriteArg payloadSprite RepeatConfig.repeatLast "b"
        Value.ctxVal [] ⟨"t", [], []⟩ [] 2) =
      some (mergeKeys [(NTree.defaultHandlerID, Value.str "B")]
        (mergeKeys (visitN evalSpriteArg payloadSprite RepeatConfig.repeatLast "b"
            Value.ctxVal [] ⟨"t", [], []⟩ [] 1).state.delta []))
    ∧ lookupKey (mergeKeys [(NTree.defaultHandlerID, Value.str "B")]
        (mergeKeys (visitN evalSpriteArg payloadSprite RepeatConfig.repeatLast "b"
            Value.ctxVal [] ⟨"t", [], []⟩ [] 1).state.delta [])) "sp" =
      some (Value.int 7) := by
  have h := @c8_amended_delta_construction evalSpriteArg payloadSprite
    RepeatConfig.repeatLast "b" Value.ctxVal [] ⟨"t", [], []⟩ [] 0 ⟨"A", "a"⟩ ⟨"B", ""⟩
    [("sp", Value.int 7)] [] "sp" (Value.int 7) (by decide) (by decide) (by decide)
    (by decide) (by decide) (by decide) (by unfold KeysNodup; decide)
    (by unfold KeysNodup; decide) (by decide)
  exact ⟨h.1, h.2.1⟩

/-- C9: with `skipArgs = false`, `NTree.update` pushes the context onto the
very array object named by the delta (no copy): after a visitation whose
dispatch delta maps provider `p` to the array reference `r`, heap cell `r`
holds its old elements plus the context.  Since the persisted accumulator
still holds the same reference, the array grows again on the next
visitation: two successive visitations append the context twice to the
same cell. -/
theorem c9_array_push_in_place (evalArgs : String → Option Delta) (l0 l1 l2 : Leaf)
    (rep : RepeatConfig) (branchID : String) (ctx : Value) (p : Handler)
    (st0 : NTree.TreeState) (heap0 : Heap) {d1 d2 : Delta} {r : Nat} {vs : List Value}
    (hskip : p.skipArgs = false)
    (hpd : p.id ≠ NTree.defaultHandlerID)
    (h0 : (lookupKey st0.log branchID).getD 0 = 0)
    (h1 : evalArgs (leafArgsTxt l1) = some d1)
    (h2 : evalArgs (leafArgsTxt l2) = some d2)
    (hacc : lookupKey st0.delta p.id = some (Value.arrRef r))
    (hheap : heap0.get? r = some vs)
    (hd1p : hasKey d1 p.id = false) (hd2p : hasKey d2 p.id = false)
    (hd1d : hasKey d1 NTree.defaultHandlerID = false)
    (hd2d : hasKey d2 NTree.defaultHandlerID = false)
    (haccd : hasKey st0.delta NTree.defaultHandlerID = false)
    (hnd0 : KeysNodup st0.delta) :
    ((visitN evalArgs [l0, l1, l2] rep branchID ctx [registeredDefault, p] st0 heap0 1).heap).get? r
      = some (vs ++ [ctx])
    ∧ lookupKey (visitN evalArgs [l0, l1, l2] rep branchID ctx [registeredDefault, p]
        st0 heap0 1).state.delta p.id = some (Value.arrRef r)
    ∧ ((visitN evalArgs [l0, l1, l2] rep branchID ctx [registeredDefault, p] st0 heap0 2).heap).get? r
      = some (vs ++ [ctx, ctx]) := by
  have hv1 : visitN evalArgs [l0, l1, l2] rep branchID ctx [registeredDefault, p] st0 heap0 1 =
      visitTree evalArgs [l0, l1, l2] rep branchID ctx [registeredDefault, p] st0 heap0 := rfl
  have hsel1 : selectCurrent ([l0, l1, l2] : List Leaf).length rep
      ((lookupKey st0.log branchID).getD 0) = some 1 := by rw [h0]; rfl
  have e1 := visitTree_dispatch evalArgs [l0, l1, l2] rep branchID ctx
    [registeredDefault, p] st0 heap0 hsel1 rfl h1
  have hnd_acc1 : KeysNodup (mergeKeys st0.delta d1) := keysNodup_mergeKeys d1 st0.delta hnd0
  have hacc1p : lookupKey (mergeKeys st0.delta d1) p.id = some (Value.arrRef r) := by
    rw [lookupKey_mergeKeys_absent d1 st0.delta hd1p]
    exact hacc
  have hacc1d : hasKey (mergeKeys st0.delta d1) NTree.defaultHandlerID = false := by
    rw [hasKey_mergeKeys d1 st0.delta NTree.defaultHandlerID, haccd, hd1d]
    rfl
  have hδ1d : lookupKey (mergeKeys [(NTree.defaultHandlerID, Value.str l1.contents)]
      (mergeKeys st0.delta d1)) NTree.defaultHandlerID = some (Value.str l1.contents) := by
    rw [lookupKey_mergeKeys_absent (mergeKeys st0.delta d1)
      [(NTree.defaultHandlerID, Value.str l1.contents)] hacc1d]
    simp [lookupKey]
  have hδ1p : lookupKey (mergeKeys [(NTree.defaultHandlerID, Value.str l1.contents)]
      (mergeKeys st0.delta d1)) p.id = some (Value.arrRef r) :=
    lookupKey_mergeKeys_present (mergeKeys st0.delta d1)
      [(NTree.defaultHandlerID, Value.str l1.contents)] hnd_acc1 hacc1p
  have hids : (([registeredDefault, p] : List Handler).map Handler.id).Nodup := by
    simp [registeredDefault, NTree.defaultHandlerDefn]
    exact fun h => hpd h.symm
  have hp_mem : p ∈ ([registeredDefault, p] : List Handler) := by simp
  have hna1 : ∀ q ∈ ([registeredDefault, p] : List Handler), q.id ≠ p.id →
      lookupKey (mergeKeys [(NTree.defaultHandlerID, Value.str l1.contents)]
        (mergeKeys st0.delta d1)) q.id ≠ some (Value.arrRef r) := by
    intro q hq hqne
    rcases List.mem_cons.mp hq with rfl | hq2
    · intro hcon
      rw [show (registeredDefault : Handler).id = NTree.defaultHandlerID from rfl] at hcon
      rw [hδ1d] at hcon
      simp at hcon
    · rcases List.mem_singleton.mp hq2 with rfl
      exact absurd rfl hqne
  have harr1 := update_callsFor_arr
    (mergeKeys [(NTree.defaultHandlerID, Value.str l1.contents)] (mergeKeys st0.delta d1))
    ctx p r hskip hδ1p [registeredDefault, p] heap0 vs hids hp_mem hheap hna1
  have hconc1 : ((visitN evalArgs [l0, l1, l2] rep branchID ctx [registeredDefault, p]
      st0 heap0 1).heap).get? r = some (vs ++ [ctx]) := by
    rw [hv1, e1]
    exact harr1.2
  have hconc2 : lookupKey (visitN evalArgs [l0, l1, l2] rep branchID ctx
      [registeredDefault, p] st0 heap0 1).state.delta p.id = some (Value.arrRef r) := by
    rw [hv1, e1]
    exact hacc1p
  refine ⟨hconc1, hconc2, ?_⟩
  have hst1 : (visitN evalArgs [l0, l1, l2] rep branchID ctx [registeredDefault, p]
      st0 heap0 1).state = ⟨st0.id, setKey st0.log branchID 1, mergeKeys st0.delta d1⟩ := by
    rw [hv1, e1]
  have hsd1 : (visitN evalArgs [l0, l1, l2] rep branchID ctx [registeredDefault, p]
      st0 heap0 1).state.delta = mergeKeys st0.delta d1 := by rw [hst1]
  have hl1 : (lookupKey (visitN evalArgs [l0, l1, l2] rep branchID ctx
      [registeredDefault, p] st0 heap0 1).state.log branchID).getD 0 = 1 := by
    rw [hst1]
    show (lookupKey (setKey st0.log branchID 1) branchID).getD 0 = 1
    rw [lookupKey_setKey_self]
    rfl
  have hv2 : visitN evalArgs [l0, l1, l2] rep branchID ctx [registeredDefault, p] st0 heap0 2 =
      visitTree evalArgs [l0, l1, l2] rep branchID ctx
        (visitN evalArgs [l0, l1, l2] rep branchID ctx [registeredDefault, p] st0 heap0 1).handlers
        (visitN evalArgs [l0, l1, l2] rep branchID ctx [registeredDefault, p] st0 heap0 1).state
        (visitN evalArgs [l0, l1, l2] rep branchID ctx [registeredDefault, p] st0 heap0 1).heap := rfl
  have hsel2 : selectCurrent ([l0, l1, l2] : List Leaf).length rep
      ((lookupKey (visitN evalArgs [l0, l1, l2] rep branchID ctx [registeredDefault, p]
        st0 heap0 1).state.log branchID).getD 0) = some 2 := by rw [hl1]; rfl
  have e2 := visitTree_dispatch evalArgs [l0, l1, l2] rep branchID ctx
    (visitN evalArgs [l0, l1, l2] rep branchID ctx [registeredDefault, p] st0 heap0 1).handlers
    (visitN evalArgs [l0, l1, l2] rep branchID ctx [registeredDefault, p] st0 heap0 1).state
    (visitN evalArgs [l0, l1, l2] rep branchID ctx [registeredDefault, p] st0 heap0 1).heap
    hsel2 rfl h2
  have hacc2p : lookupKey (mergeKeys (visitN evalArgs [l0, l1, l2] rep branchID ctx
      [registeredDefault, p] st0 heap0 1).state.delta d2) p.id = some (Value.arrRef r) := by
    rw [lookupKey_mergeKeys_absent d2 _ hd2p, hsd1]
    exact hacc1p
  have hacc2d : hasKey (mergeKeys (visitN evalArgs [l0, l1, l2] rep branchID ctx
      [registeredDefault, p] st0 heap0 1).state.delta d2) NTree.defaultHandlerID = false := by
    rw [hasKey_mergeKeys d2 _ NTree.defaultHandlerID, hsd1, hacc1d, hd2d]
    rfl
  have hnd_acc2 : KeysNodup (mergeKeys (visitN evalArgs [l0, l1, l2] rep branchID ctx
      [registeredDefault, p] st0 heap0 1).state.delta d2) := by
    rw [hsd1]
    exact keysNodup_mergeKeys d2 (mergeKeys st0.delta d1) hnd_acc1
  have hδ2d : lookupKey (mergeKeys [(NTree.defaultHandlerID, Value.str l2.contents)]
      (mergeKeys (visitN evalArgs [l0, l1, l2] rep branchID ctx [registeredDefault, p]
        st0 heap0 1).state.delta d2)) NTree.defaultHandlerID = some (Value.str l2.contents) := by
    rw [lookupKey_mergeKeys_absent _ [(NTree.defaultHandlerID, Value.str l2.contents)] hacc2d]
    simp [lookupKey]
  have hδ2p : lookupKey (mergeKeys [(NTree.defaultHandlerID, Value.str l2.contents)]
      (mergeKeys (visitN evalArgs [l0, l1, l2] rep branchID ctx [registeredDefault, p]
        st0 heap0 1).state.delta d2)) p.id = some (Value.arrRef r) :=
    lookupKey_mergeKeys_present _ [(NTree.defaultHandlerID, Value.str l2.contents)]
      hnd_acc2 hacc2p
  have hh1 : (visitN evalArgs [l0, l1, l2] rep branchID ctx [registeredDefault, p]
      st0 heap0 1).handlers =
      [{ registeredDefault with deltaSlot := some (mergeKeys
          [(NTree.defaultHandlerID, Value.str l1.contents)] (mergeKeys st0.delta d1)) },
       { p with deltaSlot := some (mergeKeys
          [(NTree.defaultHandlerID, Value.str l1.contents)] (mergeKeys st0.delta d1)) }] := by
    rw [hv1, e1]
    rfl
  have hids2 : (([{ registeredDefault with deltaSlot := some (mergeKeys
      [(NTree.defaultHandlerID, Value.str l1.contents)] (mergeKeys st0.delta d1)) },
      { p with deltaSlot := some (mergeKeys
      [(NTree.defaultHandlerID, Value.str l1.contents)] (mergeKeys st0.delta d1)) }] :
      List Handler).map Handler.id).Nodup := by
    simp [registeredDefault, NTree.defaultHandlerDefn]
    exact fun h => hpd h.symm
  have hna2 : ∀ q ∈ ([{ registeredDefault with deltaSlot := some (mergeKeys
      [(NTree.defaultHandlerID, Value.str l1.contents)] (mergeKeys st0.delta d1)) },
      { p with deltaSlot := some (mergeKeys
      [(NTree.defaultHandlerID, Value.str l1.contents)] (mergeKeys st0.delta d1)) }] :
      List Handler), q.id ≠ p.id →
      lookupKey (mergeKeys [(NTree.defaultHandlerID, Value.str l2.contents)]
        (mergeKeys (visitN evalArgs [l0, l1, l2] rep branchID ctx [registeredDefault, p]
          st0 heap0 1).state.delta d2)) q.id ≠ some (Value.arrRef r) := by
    intro q hq hqne
    rcases List.mem_cons.mp hq with rfl | hq2
    · intro hcon
      rw [show ({ registeredDefault with deltaSlot := some (mergeKeys
          [(NTree.defaultHandlerID, Value.str l1.contents)] (mergeKeys st0.delta d1)) } :
          Handler).id = NTree.defaultHandlerID from rfl] at hcon
      rw [hδ2d] at hcon
      simp at hcon
    · rcases List.mem_singleton.mp hq2 with rfl
      exact absurd rfl hqne
  have harr2 := update_callsFor_arr
    (mergeKeys [(NTree.defaultHandlerID, Value.str l2.contents)]
      (mergeKeys (visitN evalArgs [l0, l1, l2] rep branchID ctx [registeredDefault, p]
        st0 heap0 1).state.delta d2))
    ctx { p with deltaSlot := some (mergeKeys
        [(NTree.defaultHandlerID, Value.str l1.contents)] (mergeKeys st0.delta d1)) }
    r hskip hδ2p
    [{ registeredDefault with deltaSlot := some (mergeKeys
        [(NTree.defaultHandlerID, Value.str l1.contents)] (mergeKeys st0.delta d1)) },
     { p with deltaSlot := some (mergeKeys
        [(NTree.defaultHandlerID, Value.str l1.contents)] (mergeKeys st0.delta d1)) }]
    (visitN evalArgs [l0, l1, l2] rep branchID ctx [registeredDefault, p] st0 heap0 1).heap
    (vs ++ [ctx]) hids2 (by simp) hconc1 hna2
  rw [hv2, e2, hh1]
  have := harr2.2
  rw [this]
  simp

/-- C9 witness: with the accumulator holding an array reference for
provider `"p"` and heap cell 0 starting as `[9]`, the first visitation
grows the cell to `[9, ctx]` and the second to `[9, ctx, ctx]`, while the
accumulator still holds the same reference. -/
theorem c9_witness :
    ((visitN evalEmptyObj [⟨"P", ""⟩, ⟨"A", ""⟩, ⟨"B", ""⟩] RepeatConfig.repeatLast "b"
        Value.ctxVal [registeredDefault, sampleHandler]
        ⟨"t", [], [("p", Value.arrRef 0)]⟩ [[Value.int 9]] 1).heap).get? 0
      = some [Value.int 9, Value.ctxVal]
    ∧ lookupKey (visitN evalEmptyObj [⟨"P", ""⟩, ⟨"A", ""⟩, ⟨"B", ""⟩]
        RepeatConfig.repeatLast "b" Value.ctxVal [registeredDefault, sampleHandler]
        ⟨"t", [], [("p", Value.arrRef 0)]⟩ [[Value.int 9]] 1).state.delta "p"
      = some (Value.arrRef 0)
    ∧ ((visitN evalEmptyObj [⟨"P", ""⟩, ⟨"A", ""⟩, ⟨"B", ""⟩] RepeatConfig.repeatLast "b"
        Value.ctxVal [registeredDefault, sampleHandler]
        ⟨"t", [], [("p", Value.arrRef 0)]⟩ [[Value.int 9]] 2).heap).get? 0
      = some [Value.int 9, Value.ctxVal, Value.ctxVal] := by
  have h := @c9_array_push_in_place evalEmptyObj ⟨"P", ""⟩ ⟨"A", ""⟩ ⟨"B", ""⟩
    RepeatConfig.repeatLast "b" Value.ctxVal sampleHandler
    ⟨"t", [], [("p", Value.arrRef 0)]⟩ [[Value.int 9]] [] [] 0 [Value.int 9]
    rfl (by decide) (by decide) (by decide) (by decide) (by decide) (by decide)
    (by decide) (by decide) (by decide) (by decide) (by decide)
    (by unfold KeysNodup; decide)
  exact h
